import Mathlib

/-!
Shallow embedding of the `learning_abci` skill (rounds.py, behaviours.py,
models.py) of the academy-learning-service repository, together with proofs
about the embedded definitions.

Python floats are modelled by `ℚ`; Python `None` by `Option`; Python dicts by
insertion-ordered association lists with key-replacing insertion.
-/

namespace LearningAbci

/-- The `Event` enum from rounds.py. -/
inductive Event where
  | DONE
  | ERROR
  | TRANSACT
  | NO_MAJORITY
  | ROUND_TIMEOUT
  | COINGECKO
  | COINMARKETCAP
  deriving DecidableEq, Repr

/-- The string value of each `Event` member, as declared in rounds.py. -/
def Event.value : Event → String
  | .DONE => "done"
  | .ERROR => "error"
  | .TRANSACT => "transact"
  | .NO_MAJORITY => "no_majority"
  | .ROUND_TIMEOUT => "round_timeout"
  | .COINGECKO => "coingecko"
  | .COINMARKETCAP => "coinmarketcap"

/-- The round classes of `LearningAbciApp` (rounds.py). -/
inductive Round where
  | ApiSelectionRound
  | DataPullRound
  | AlternativeDataPullRound
  | DecisionMakingRound
  | TxPreparationRound
  | FinishedDecisionMakingRound
  | FinishedTxPreparationRound
  deriving DecidableEq, Repr

open Round in
/-- `LearningAbciApp.transition_function` from rounds.py, as a map from
(round, event) to the next round; `none` where the Python dict for the round
has no entry for the event. -/
def transitionFn : Round → Event → Option Round
  | ApiSelectionRound, .NO_MAJORITY => some ApiSelectionRound
  | ApiSelectionRound, .ROUND_TIMEOUT => some ApiSelectionRound
  | ApiSelectionRound, .COINGECKO => some DataPullRound
  | ApiSelectionRound, .COINMARKETCAP => some AlternativeDataPullRound
  | DataPullRound, .NO_MAJORITY => some DataPullRound
  | DataPullRound, .ROUND_TIMEOUT => some DataPullRound
  | DataPullRound, .DONE => some DecisionMakingRound
  | AlternativeDataPullRound, .NO_MAJORITY => some AlternativeDataPullRound
  | AlternativeDataPullRound, .ROUND_TIMEOUT => some AlternativeDataPullRound
  | AlternativeDataPullRound, .DONE => some DecisionMakingRound
  | DecisionMakingRound, .NO_MAJORITY => some DecisionMakingRound
  | DecisionMakingRound, .ROUND_TIMEOUT => some DecisionMakingRound
  | DecisionMakingRound, .DONE => some FinishedDecisionMakingRound
  | DecisionMakingRound, .ERROR => some FinishedDecisionMakingRound
  | DecisionMakingRound, .TRANSACT => some TxPreparationRound
  | TxPreparationRound, .NO_MAJORITY => some TxPreparationRound
  | TxPreparationRound, .ROUND_TIMEOUT => some TxPreparationRound
  | TxPreparationRound, .DONE => some FinishedTxPreparationRound
  | _, _ => none

open Round in
/-- The spec's literal transition table (spec §4.3): self-loops on
`NO_MAJORITY`/`ROUND_TIMEOUT`, the branch events out of `ApiSelection`, `DONE`
edges, `ERROR`/`TRANSACT` out of `DecisionMaking`, and empty entries for the
two finished rounds. -/
def specTransitionTable : Round → Event → Option Round := fun r e =>
  match r with
  | ApiSelectionRound =>
      if e = .NO_MAJORITY ∨ e = .ROUND_TIMEOUT then some ApiSelectionRound
      else if e = .COINGECKO then some DataPullRound
      else if e = .COINMARKETCAP then some AlternativeDataPullRound
      else none
  | DataPullRound =>
      if e = .NO_MAJORITY ∨ e = .ROUND_TIMEOUT then some DataPullRound
      else if e = .DONE then some DecisionMakingRound
      else none
  | AlternativeDataPullRound =>
      if e = .NO_MAJORITY ∨ e = .ROUND_TIMEOUT then some AlternativeDataPullRound
      else if e = .DONE then some DecisionMakingRound
      else none
  | DecisionMakingRound =>
      if e = .DONE ∨ e = .ERROR then some FinishedDecisionMakingRound
      else if e = .TRANSACT then some TxPreparationRound
      else if e = .NO_MAJORITY ∨ e = .ROUND_TIMEOUT then some DecisionMakingRound
      else none
  | TxPreparationRound =>
      if e = .DONE then some FinishedTxPreparationRound
      else if e = .NO_MAJORITY ∨ e = .ROUND_TIMEOUT then some TxPreparationRound
      else none
  | FinishedDecisionMakingRound => none
  | FinishedTxPreparationRound => none

/-! ## Synchronized data -/

/-- A plain payload-field value: Python `None`, a string, or a number. -/
inductive PlainValue where
  | pnone
  | pstr (s : String)
  | pnum (q : ℚ)
  deriving DecidableEq, Repr

/-- A value stored in the replicated key/value database: a plain value, or a
raw agent→payload-values collection (as stored under a round's
`collection_key`). -/
inductive DBValue where
  | plain (v : PlainValue)
  | vcoll (c : List (String × List PlainValue))
  deriving DecidableEq, Repr

/-- Shorthand for a stored string value. -/
def DBValue.vstr (s : String) : DBValue := .plain (.pstr s)

/-- Shorthand for a stored numeric value. -/
def DBValue.vnum (q : ℚ) : DBValue := .plain (.pnum q)

/-- The replicated database underlying `SynchronizedData`: a partial map from
string keys to stored values (`none` = key absent). -/
def SyncDB : Type := String → Option DBValue

/-- The empty database (no key has ever been set). -/
def SyncDB.empty : SyncDB := fun _ => none

/-- `SynchronizedData.update(key=value)`: extend the database with one binding
(a new logical version; existing keys are shadowed, never mutated). -/
def SyncDB.set (s : SyncDB) (k : String) (v : DBValue) : SyncDB :=
  fun k' => if k' = k then some v else s k'

/-- `SynchronizedData.api_selection` (rounds.py): `db.get("api_selection",
"coingecko")` — the stored value, defaulting to the string `"coingecko"` when
the key is absent. -/
def SyncDB.api_selection (s : SyncDB) : DBValue :=
  (s "api_selection").getD (.vstr "coingecko")

/-! ## ApiSelectionRound and its behaviour -/

/-- `ApiSelectionRound.end_block` (rounds.py): on threshold, if the recorded
`api_selection` differs from the most voted payload, update it and return
`COINMARKETCAP`; otherwise return `COINGECKO`; below threshold return `None`.
Inputs: the synchronized data, whether the collection threshold was reached,
and the most voted payload value. -/
def apiSelectionEndBlock (s : SyncDB) (thresholdReached : Bool)
    (mostVotedPayload : String) : Option (SyncDB × Event) :=
  if thresholdReached then
    if s.api_selection ≠ .vstr mostVotedPayload then
      some (s.set "api_selection" (.vstr mostVotedPayload), .COINMARKETCAP)
    else
      some (s, .COINGECKO)
  else none

/-- The payload-normalisation step of `ApiSelectionBehaviour.async_act`
(behaviours.py): start from `"coingecko"` and keep the configured selection
only when it is exactly `"coinmarketcap"`. -/
def normalizeApiSelection (selection : String) : String :=
  if selection = "coinmarketcap" then selection else "coingecko"

end LearningAbci

namespace LearningAbci

/-! ## Rebalancing parameters (models.py) -/

/-- The rebalancing-related fields of `Params` (models.py). -/
structure RebalanceParams where
  tokens_to_rebalance : List String
  target_percentages : List ℚ
  variation_threshold : ℚ
  deriving DecidableEq, Repr

/-- `Params.validate_params` (models.py): raise `ValueError` (here: return
`Except.error` with the message) at the first violated invariant, otherwise
return successfully without changing anything. -/
def validate_params (p : RebalanceParams) : Except String Unit :=
  if p.tokens_to_rebalance.length ≠ p.target_percentages.length then
    .error "The number of tokens must match the number of target percentages."
  else if p.target_percentages.sum ≠ 100 then
    .error "Target percentages must sum to 100."
  else if ¬(0 ≤ p.variation_threshold ∧ p.variation_threshold ≤ 100) then
    .error "Variation threshold must be between 0 and 100."
  else
    .ok ()

end LearningAbci

namespace LearningAbci

/-! ## Python dicts as association lists -/

/-- Python `dict[str, float]` as an insertion-ordered association list.
`d[k] = v`: replace the value in place when the key is present, else append. -/
def dictInsert (d : List (String × ℚ)) (k : String) (v : ℚ) : List (String × ℚ) :=
  if d.any (fun p => p.1 == k) then
    d.map (fun p => if p.1 == k then (k, v) else p)
  else
    d ++ [(k, v)]

/-- Python `d.get(k, dflt)`. -/
def dictGet (d : List (String × ℚ)) (k : String) (dflt : ℚ) : ℚ :=
  match d.find? (fun p => p.1 == k) with
  | some p => p.2
  | none => dflt

/-- Optional lookup in a dict (`k in d` / `d[k]`). -/
def lookupOpt (d : List (String × ℚ)) (k : String) : Option ℚ :=
  (d.find? (fun p => p.1 == k)).map Prod.snd

/-! ## DecisionMakingRound (rounds.py) -/

/-- The business fields of `DecisionMakingPayload`: the event string and the
optional serialized adjustment mapping. -/
structure DecisionMakingPayload where
  event : String
  adjustment_balances : Option String
  deriving DecidableEq, Repr

/-- `DecisionMakingRound.end_block` (rounds.py). On threshold: scan the
collection for the first payload whose `event` equals the most voted payload
value; if none, return `ERROR` unchanged; if its `adjustment_balances` is
present, store it and return `TRANSACT`; else return `DONE` unchanged. Below
threshold: return `NO_MAJORITY` once majority is impossible, else `None`.
Inputs: synchronized data, threshold flag, the ordered payload collection
(`self.collection.values()`), the most voted payload value, and whether a
majority is still possible. -/
def decisionMakingEndBlock (s : SyncDB) (thresholdReached : Bool)
    (collection : List DecisionMakingPayload) (mostVotedPayload : String)
    (majorityPossible : Bool) : Option (SyncDB × Event) :=
  if thresholdReached then
    match collection.find? (fun p => p.event == mostVotedPayload) with
    | none => some (s, .ERROR)
    | some p =>
      match p.adjustment_balances with
      | some ab => some (s.set "adjustment_balances" (.vstr ab), .TRANSACT)
      | none => some (s, .DONE)
  else if ¬majorityPossible then
    some (s, .NO_MAJORITY)
  else
    none

/-! ## Portfolio valuation (behaviours.py, `calculate_portfolio_allocation`) -/

/-- One iteration of the valuation loop: skip the token when its balance or
its fetched price is unavailable, else record `balance * price` in the
token-value dict and add it to the running total. -/
def allocStep (price : String → Option ℚ) (acc : List (String × ℚ) × ℚ)
    (tb : String × Option ℚ) : List (String × ℚ) × ℚ :=
  match tb.2 with
  | none => acc
  | some balance =>
    match price tb.1 with
    | none => acc
    | some p => (dictInsert acc.1 tb.1 (balance * p), acc.2 + balance * p)

/-- `DataPullBehaviour.calculate_portfolio_allocation` (behaviours.py),
parametrised by the fetched balances (`None` when `get_token_balances`
failed) and the price lookup (`None` for an unavailable price). Returns
`None` when balances are missing or the total is zero, else the token-value
dict and the total. -/
def calculate_portfolio_allocation (token_balances : Option (List (String × Option ℚ)))
    (price : String → Option ℚ) : Option (List (String × ℚ) × ℚ) :=
  match token_balances with
  | none => none
  | some balances =>
    let r := balances.foldl (allocStep price) ([], 0)
    if r.2 = 0 then none else some r

/-- The value recorded for one token by the valuation loop, in isolation:
`balance * price` when both are available, `none` (skipped) otherwise. -/
def allocEntry (price : String → Option ℚ) (t : String) (ob : Option ℚ) : Option ℚ :=
  match ob with
  | none => none
  | some balance =>
    match price t with
    | none => none
    | some p => some (balance * p)

/-- The concrete price table of the C3 scenario: A ↦ 2, B ↦ 5. -/
def priceAB : String → Option ℚ :=
  fun t => if t = "A" then some 2 else if t = "B" then some 5 else none

/-! ## Rebalancing decision (behaviours.py, `DecisionMakingBehaviour`) -/

/-- Python's built-in `abs` on a number. -/
def pyAbs (q : ℚ) : ℚ := if q < 0 then -q else q

/-- One iteration of the rebalancing loop over `(token, target_percentage)`:
skip when the price is unavailable; else compute the target value
`pct/100 * total`, the deviation `(current - target)/target * 100`, and
record `target_value / price` when `|deviation|` exceeds the threshold. -/
def rebalanceStep (token_values : List (String × ℚ)) (total thr : ℚ)
    (price : String → Option ℚ) (acc : List (String × ℚ)) (tp : String × ℚ) :
    List (String × ℚ) :=
  match price tp.1 with
  | none => acc
  | some token_price =>
    let current_value := dictGet token_values tp.1 0
    let target_value := tp.2 / 100 * total
    let target_token_amount := target_value / token_price
    let deviation := (current_value - target_value) / target_value * 100
    if thr < pyAbs deviation then dictInsert acc tp.1 target_token_amount else acc

/-- The recorded action for one token, in isolation: `some (target/price)`
when the price is available and the deviation exceeds the threshold, else
`none`. -/
def rebalanceEntry (token_values : List (String × ℚ)) (total thr : ℚ)
    (price : String → Option ℚ) (t : String) (pct : ℚ) : Option ℚ :=
  match price t with
  | none => none
  | some token_price =>
    let current_value := dictGet token_values t 0
    let target_value := pct / 100 * total
    let deviation := (current_value - target_value) / target_value * 100
    if thr < pyAbs deviation then some (target_value / token_price) else none

/-- `DecisionMakingBehaviour.calculate_rebalancing_actions` (behaviours.py),
parametrised by the synchronized token-value dict, the synchronized total
portfolio value, the configured target percentages / token list / threshold,
and the price lookup. Returns `None` when the total is missing or
non-positive, else the dict of new target token amounts. -/
def calculate_rebalancing_actions (token_values : List (String × ℚ))
    (total_portfolio_value : Option ℚ) (target_percentages : List ℚ)
    (tokens_to_rebalance : List String) (variation_threshold : ℚ)
    (price : String → Option ℚ) : Option (List (String × ℚ)) :=
  match total_portfolio_value with
  | none => none
  | some total =>
    if total ≤ 0 then none
    else
      some ((tokens_to_rebalance.zip target_percentages).foldl
        (rebalanceStep token_values total variation_threshold price) [])

/-- `DecisionMakingBehaviour.get_next_event` (behaviours.py), parametrised by
the result of `calculate_rebalancing_actions`. `None` ⇒ (`DONE`, no payload);
otherwise (`TRANSACT`, dict serialized when truthy — the empty dict, being
falsy, serializes to `None`). The serialized JSON string is modelled by the
dict itself. -/
def get_next_event (rebalancing_actions : Option (List (String × ℚ))) :
    String × Option (List (String × ℚ)) :=
  match rebalancing_actions with
  | none => (Event.DONE.value, none)
  | some actions =>
    (Event.TRANSACT.value, if actions.isEmpty then none else some actions)

/-! ## Generic threshold rounds (DataPull, AlternativeDataPull, TxPreparation) -/

/-- The class-level attributes of a `CollectSameUntilThresholdRound` subclass
that declares `done_event`, `no_majority_event`, `collection_key` and
`selection_key` (rounds.py). -/
structure ThresholdRoundClass where
  done_event : Event
  no_majority_event : Event
  collection_key : String
  selection_key : List String
  deriving DecidableEq, Repr

/-- Modelled from the spec: `CollectSameUntilThresholdRound.end_block` (from
the `abstract_round_abci` framework, which is not under src/). On quorum,
store the agent→payload collection under `collection_key`, project the
winning payload's values into the synchronized data under the selection
keys, and emit `done_event`; once majority is impossible emit
`no_majority_event`; otherwise return `None`. -/
def collectSameEndBlock (cls : ThresholdRoundClass) (s : SyncDB)
    (thresholdReached : Bool) (collection : List (String × List PlainValue))
    (mostVotedValues : List PlainValue) (majorityPossible : Bool) :
    Option (SyncDB × Event) :=
  if thresholdReached then
    let s1 := s.set cls.collection_key (.vcoll collection)
    let s2 := (cls.selection_key.zip mostVotedValues).foldl
      (fun acc kv => acc.set kv.1 (.plain kv.2)) s1
    some (s2, cls.done_event)
  else if ¬majorityPossible then
    some (s, cls.no_majority_event)
  else
    none

/-- The class attributes of `DataPullRound` (rounds.py). -/
def DataPullRoundClass : ThresholdRoundClass :=
  { done_event := .DONE
    no_majority_event := .NO_MAJORITY
    collection_key := "participant_to_data_round"
    selection_key := ["token_values", "total_portfolio_value"] }

/-- The class attributes of `AlternativeDataPullRound` (rounds.py). -/
def AlternativeDataPullRoundClass : ThresholdRoundClass :=
  { done_event := .DONE
    no_majority_event := .NO_MAJORITY
    collection_key := "participant_to_data_round"
    selection_key := ["token_values", "total_portfolio_value"] }

/-- The class attributes of `TxPreparationRound` (rounds.py). -/
def TxPreparationRoundClass : ThresholdRoundClass :=
  { done_event := .DONE
    no_majority_event := .NO_MAJORITY
    collection_key := "participant_to_tx_round"
    selection_key := ["tx_submitter", "most_voted_tx_hash"] }

/-- `LearningAbciApp.db_post_conditions` (rounds.py): the set of keys
guaranteed present when a terminal round is reached; `none` for rounds with
no entry. -/
def db_post_conditions : Round → Option (List String)
  | .FinishedDecisionMakingRound => some []
  | .FinishedTxPreparationRound => some ["most_voted_tx_hash"]
  | _ => none

end LearningAbci

namespace LearningAbci

/-! ## Theorems -/

/-! ### Association-list lemmas -/

theorem find?_map_keyReplace (l : List (String × ℚ)) (k k' : String) (v : ℚ)
    (h : k' ≠ k) :
    (l.map (fun p => if p.1 == k then (k, v) else p)).find? (fun p => p.1 == k') =
      l.find? (fun p => p.1 == k') := by
  induction l with
  | nil => rfl
  | cons hd tl ih =>
    rw [List.map_cons]
    have hk : (k == k') = false := beq_eq_false_iff_ne.mpr fun hc => h hc.symm
    by_cases h1 : (hd.1 == k) = true
    · rw [if_pos h1]
      have h1' : hd.1 = k := by simpa using h1
      have hh : (hd.1 == k') = false := by rw [h1']; exact hk
      simp only [List.find?_cons, hk, hh]
      exact ih
    · rw [if_neg h1]
      by_cases h2 : (hd.1 == k') = true
      · simp only [List.find?_cons, h2]
      · have h2f : (hd.1 == k') = false := by simpa using h2
        simp only [List.find?_cons, h2f]
        exact ih

theorem find?_map_keyReplace_self (l : List (String × ℚ)) (k : String) (v : ℚ)
    (hany : l.any (fun p => p.1 == k) = true) :
    (l.map (fun p => if p.1 == k then (k, v) else p)).find? (fun p => p.1 == k) =
      some (k, v) := by
  induction l with
  | nil => simp at hany
  | cons hd tl ih =>
    rw [List.map_cons]
    by_cases h1 : (hd.1 == k) = true
    · rw [if_pos h1]
      simp only [List.find?_cons, beq_self_eq_true]
    · have h1f : (hd.1 == k) = false := by simpa using h1
      rw [if_neg h1]
      simp only [List.find?_cons, h1f]
      apply ih
      rcases List.any_eq_true.mp hany with ⟨x, hx, hpx⟩
      rcases List.mem_cons.mp hx with heq | hx'
      · subst heq; exact absurd hpx (by simpa using h1)
      · exact List.any_eq_true.mpr ⟨x, hx', hpx⟩

theorem lookupOpt_dictInsert_self (d : List (String × ℚ)) (k : String) (v : ℚ) :
    lookupOpt (dictInsert d k v) k = some v := by
  unfold dictInsert
  by_cases hany : d.any (fun p => p.1 == k) = true
  · rw [if_pos hany]
    unfold lookupOpt
    rw [find?_map_keyReplace_self d k v hany]
    rfl
  · rw [if_neg hany]
    unfold lookupOpt
    have hnone : d.find? (fun p => p.1 == k) = none := by
      rw [List.find?_eq_none]
      intro x hx hc
      exact hany (List.any_eq_true.mpr ⟨x, hx, hc⟩)
    rw [List.find?_append, hnone]
    simp [List.find?]

theorem lookupOpt_dictInsert_ne (d : List (String × ℚ)) (k k' : String) (v : ℚ)
    (h : k' ≠ k) :
    lookupOpt (dictInsert d k v) k' = lookupOpt d k' := by
  unfold dictInsert
  by_cases hany : d.any (fun p => p.1 == k) = true
  · rw [if_pos hany]
    unfold lookupOpt
    rw [find?_map_keyReplace d k k' v h]
  · rw [if_neg hany]
    unfold lookupOpt
    have hk : (k == k') = false := beq_eq_false_iff_ne.mpr fun hc => h hc.symm
    have hsingle : ([(k, v)].find? (fun p => p.1 == k')) = none := by
      simp [List.find?, hk]
    rw [List.find?_append, hsingle, Option.or_none]

theorem map_fst_zip_sublist {α β : Type} (l1 : List α) (l2 : List β) :
    ((l1.zip l2).map Prod.fst).Sublist l1 := by
  induction l1 generalizing l2 with
  | nil => simp
  | cons a l1 ih =>
    cases l2 with
    | nil => simp
    | cons b l2 => simpa using (ih l2).cons₂ a

/-! ### Valuation-loop lemmas -/

theorem allocStep_lookup_ne (price : String → Option ℚ)
    (acc : List (String × ℚ) × ℚ) (x : String × Option ℚ) (t : String)
    (h : t ≠ x.1) :
    lookupOpt (allocStep price acc x).1 t = lookupOpt acc.1 t := by
  unfold allocStep
  cases x.2 with
  | none => rfl
  | some b =>
    cases price x.1 with
    | none => rfl
    | some p => exact lookupOpt_dictInsert_ne acc.1 x.1 t (b * p) h

theorem alloc_foldl_lookup_not_mem (price : String → Option ℚ)
    (l : List (String × Option ℚ)) (acc : List (String × ℚ) × ℚ) (t : String)
    (h : t ∉ l.map Prod.fst) :
    lookupOpt (l.foldl (allocStep price) acc).1 t = lookupOpt acc.1 t := by
  induction l generalizing acc with
  | nil => rfl
  | cons hd tl ih =>
    simp only [List.map_cons, List.mem_cons, not_or] at h
    rw [List.foldl_cons, ih _ h.2, allocStep_lookup_ne price acc hd t h.1]

theorem alloc_foldl_lookup_mem (price : String → Option ℚ)
    (l : List (String × Option ℚ)) (acc : List (String × ℚ) × ℚ)
    (t : String) (ob : Option ℚ)
    (hnd : (l.map Prod.fst).Nodup) (hmem : (t, ob) ∈ l) :
    lookupOpt (l.foldl (allocStep price) acc).1 t =
      (allocEntry price t ob).or (lookupOpt acc.1 t) := by
  induction l generalizing acc with
  | nil => exact absurd hmem (List.not_mem_nil _)
  | cons hd tl ih =>
    simp only [List.map_cons, List.nodup_cons] at hnd
    rcases List.mem_cons.mp hmem with heq | hmem'
    · subst heq
      have hnot : t ∉ tl.map Prod.fst := by simpa using hnd.1
      rw [List.foldl_cons, alloc_foldl_lookup_not_mem price tl _ t hnot]
      unfold allocStep allocEntry
      cases ob with
      | none => rfl
      | some b =>
        cases price t with
        | none => rfl
        | some p =>
          simp only [Option.or_some]
          exact lookupOpt_dictInsert_self acc.1 t (b * p)
    · have htm : t ∈ tl.map Prod.fst :=
        List.mem_map.mpr ⟨(t, ob), hmem', rfl⟩
      have hne : t ≠ hd.1 := fun hc => hnd.1 (hc ▸ htm)
      rw [List.foldl_cons, ih _ hnd.2 hmem',
        allocStep_lookup_ne price acc hd t hne]

theorem alloc_foldl_total (price : String → Option ℚ)
    (l : List (String × Option ℚ)) (acc : List (String × ℚ) × ℚ) :
    (l.foldl (allocStep price) acc).2 =
      acc.2 + (l.map (fun x => (allocEntry price x.1 x.2).getD 0)).sum := by
  induction l generalizing acc with
  | nil => simp
  | cons hd tl ih =>
    obtain ⟨t0, ob0⟩ := hd
    rw [List.foldl_cons, ih, List.map_cons, List.sum_cons]
    unfold allocStep allocEntry
    cases ob0 with
    | none => simp
    | some b =>
      cases hp : price t0 with
      | none => simp [hp]
      | some p => simp [hp, add_assoc]

/-! ### Rebalancing-loop lemmas -/

theorem rebalanceStep_lookup_ne (token_values : List (String × ℚ))
    (total thr : ℚ) (price : String → Option ℚ) (acc : List (String × ℚ))
    (x : String × ℚ) (t : String) (h : t ≠ x.1) :
    lookupOpt (rebalanceStep token_values total thr price acc x) t =
      lookupOpt acc t := by
  unfold rebalanceStep
  cases price x.1 with
  | none => rfl
  | some p =>
    simp only
    split
    · exact lookupOpt_dictInsert_ne acc x.1 t _ h
    · rfl

theorem rebalance_foldl_lookup_not_mem (token_values : List (String × ℚ))
    (total thr : ℚ) (price : String → Option ℚ) (l : List (String × ℚ))
    (acc : List (String × ℚ)) (t : String) (h : t ∉ l.map Prod.fst) :
    lookupOpt (l.foldl (rebalanceStep token_values total thr price) acc) t =
      lookupOpt acc t := by
  induction l generalizing acc with
  | nil => rfl
  | cons hd tl ih =>
    simp only [List.map_cons, List.mem_cons, not_or] at h
    rw [List.foldl_cons, ih _ h.2,
      rebalanceStep_lookup_ne token_values total thr price acc hd t h.1]

theorem rebalance_foldl_lookup_mem (token_values : List (String × ℚ))
    (total thr : ℚ) (price : String → Option ℚ) (l : List (String × ℚ))
    (acc : List (String × ℚ)) (t : String) (pct : ℚ)
    (hnd : (l.map Prod.fst).Nodup) (hmem : (t, pct) ∈ l) :
    lookupOpt (l.foldl (rebalanceStep token_values total thr price) acc) t =
      (rebalanceEntry token_values total thr price t pct).or (lookupOpt acc t) := by
  induction l generalizing acc with
  | nil => exact absurd hmem (List.not_mem_nil _)
  | cons hd tl ih =>
    simp only [List.map_cons, List.nodup_cons] at hnd
    rcases List.mem_cons.mp hmem with heq | hmem'
    · subst heq
      have hnot : t ∉ tl.map Prod.fst := by simpa using hnd.1
      rw [List.foldl_cons,
        rebalance_foldl_lookup_not_mem token_values total thr price tl _ t hnot]
      unfold rebalanceStep rebalanceEntry
      cases price t with
      | none => rfl
      | some p =>
        simp only
        split
        · simp only [Option.or_some]
          exact lookupOpt_dictInsert_self acc t _
        · rfl
    · have htm : t ∈ tl.map Prod.fst :=
        List.mem_map.mpr ⟨(t, pct), hmem', rfl⟩
      have hne : t ≠ hd.1 := fun hc => hnd.1 (hc ▸ htm)
      rw [List.foldl_cons, ih _ hnd.2 hmem',
        rebalanceStep_lookup_ne token_values total thr price acc hd t hne]

/-- C1 counterexample: with `"coinmarketcap"` recorded as the current
selection, a quorum choice of `"coingecko"` differs from it, and
`ApiSelectionRound.end_block` emits `COINMARKETCAP` — not the event matching
the new choice — refuting the claim that a quorum choice of `"coingecko"`
never yields the `COINMARKETCAP` event. -/
theorem apiSelection_coingecko_payload_yields_coinmarketcap :
    (apiSelectionEndBlock
        (SyncDB.empty.set "api_selection" (DBValue.vstr "coinmarketcap"))
        true "coingecko").map Prod.snd = some Event.COINMARKETCAP ∧
      Event.COINMARKETCAP ≠ Event.COINGECKO := by
  exact ⟨rfl, by decide⟩

/-- C1 (amended): on quorum, if the quorum-chosen identifier differs from the
recorded `api_selection`, the state is updated to the new choice and the
`COINMARKETCAP` event is emitted regardless of which identifier was chosen;
if it is unchanged, `COINGECKO` is emitted with the state unchanged; below
threshold the round returns `None`. -/
theorem apiSelection_end_block_branches (s : SyncDB) (payload : String) :
    apiSelectionEndBlock s false payload = none ∧
    (s.api_selection = DBValue.vstr payload →
      apiSelectionEndBlock s true payload = some (s, Event.COINGECKO)) ∧
    (s.api_selection ≠ DBValue.vstr payload →
      apiSelectionEndBlock s true payload =
        some (s.set "api_selection" (DBValue.vstr payload), Event.COINMARKETCAP) ∧
      (s.set "api_selection" (DBValue.vstr payload)).api_selection =
        DBValue.vstr payload) := by
  refine ⟨rfl, ?_, ?_⟩
  · intro h
    simp [apiSelectionEndBlock, h]
  · intro h
    refine ⟨by simp [apiSelectionEndBlock, h], ?_⟩
    simp [SyncDB.api_selection, SyncDB.set]

/-- Witness for the amended C1 theorem at a concrete differing input. -/
theorem apiSelection_end_block_branches_witness :
    SyncDB.empty.api_selection ≠ DBValue.vstr "coinmarketcap" ∧
    (apiSelectionEndBlock SyncDB.empty true "coinmarketcap" =
        some (SyncDB.empty.set "api_selection" (DBValue.vstr "coinmarketcap"),
          Event.COINMARKETCAP) ∧
      (SyncDB.empty.set "api_selection" (DBValue.vstr "coinmarketcap")).api_selection =
        DBValue.vstr "coinmarketcap") :=
  ⟨by decide,
    (apiSelection_end_block_branches SyncDB.empty "coinmarketcap").2.2 (by decide)⟩

/-- C9: whenever `ApiSelectionRound.end_block` produces a new state from a
state whose recorded selection is one of `"coingecko"`/`"coinmarketcap"` and
a payload that is one of the two, the new state's `api_selection` is again
one of the two; reading the key on a database where it was never set yields
the default `"coingecko"`; and the behaviour's normalisation maps every
configured string other than `"coinmarketcap"` to `"coingecko"`, so its
output is always one of the two. -/
theorem api_selection_always_known (s s' : SyncDB) (payload : String)
    (b : Bool) (e : Event)
    (hs : s.api_selection = DBValue.vstr "coingecko" ∨
      s.api_selection = DBValue.vstr "coinmarketcap")
    (hp : payload = "coingecko" ∨ payload = "coinmarketcap")
    (h : apiSelectionEndBlock s b payload = some (s', e)) :
    (s'.api_selection = DBValue.vstr "coingecko" ∨
      s'.api_selection = DBValue.vstr "coinmarketcap") ∧
    SyncDB.empty.api_selection = DBValue.vstr "coingecko" ∧
    (∀ sel, normalizeApiSelection sel = "coingecko" ∨
      normalizeApiSelection sel = "coinmarketcap") ∧
    (∀ sel, sel ≠ "coinmarketcap" → normalizeApiSelection sel = "coingecko") := by
  refine ⟨?_, rfl, ?_, ?_⟩
  · cases b with
    | false => simp [apiSelectionEndBlock] at h
    | true =>
      by_cases hne : s.api_selection = DBValue.vstr payload
      · simp only [apiSelectionEndBlock, if_true, ne_eq, hne, not_true_eq_false,
          if_false, Option.some.injEq, Prod.mk.injEq] at h
        rcases h with ⟨h1, _⟩
        rw [← h1]
        exact hs
      · simp only [apiSelectionEndBlock, if_true, ne_eq, hne, not_false_eq_true,
          if_true, Option.some.injEq, Prod.mk.injEq] at h
        rcases h with ⟨h1, _⟩
        rw [← h1]
        have : (s.set "api_selection" (DBValue.vstr payload)).api_selection =
            DBValue.vstr payload := by
          simp [SyncDB.api_selection, SyncDB.set]
        rcases hp with hp | hp
        · left; rw [this, hp]
        · right; rw [this, hp]
  · intro sel
    by_cases hsel : sel = "coinmarketcap"
    · right; simp [normalizeApiSelection, hsel]
    · left; simp [normalizeApiSelection, hsel]
  · intro sel hsel
    simp [normalizeApiSelection, hsel]

/-- Witness for C9 at a concrete quorum transition. -/
theorem api_selection_always_known_witness :
    (SyncDB.empty.api_selection = DBValue.vstr "coingecko" ∨
      SyncDB.empty.api_selection = DBValue.vstr "coinmarketcap") ∧
    (("coinmarketcap" : String) = "coingecko" ∨
      ("coinmarketcap" : String) = "coinmarketcap") ∧
    ((SyncDB.empty.set "api_selection" (DBValue.vstr "coinmarketcap")).api_selection =
        DBValue.vstr "coingecko" ∨
      (SyncDB.empty.set "api_selection" (DBValue.vstr "coinmarketcap")).api_selection =
        DBValue.vstr "coinmarketcap") :=
  ⟨Or.inl rfl, Or.inr rfl,
    (api_selection_always_known SyncDB.empty
      (SyncDB.empty.set "api_selection" (DBValue.vstr "coinmarketcap"))
      "coinmarketcap" true Event.COINMARKETCAP (Or.inl rfl) (Or.inr rfl) rfl).1⟩

/-- C5: on quorum, `DecisionMakingRound.end_block` scans for the first payload
whose `event` field equals the winning event value (any payload it finds does
satisfy that equation); when no payload matches it emits `ERROR` with the
synchronized data unchanged; when the located payload has no adjustment map it
emits `DONE` with the synchronized data unchanged; and only when an adjustment
map is present does it extend the state with it and emit `TRANSACT`. -/
theorem decision_making_end_block_cases (s : SyncDB)
    (coll : List DecisionMakingPayload) (mv : String) (mp : Bool) :
    (coll.find? (fun p => p.event == mv) = none →
      decisionMakingEndBlock s true coll mv mp = some (s, Event.ERROR)) ∧
    (∀ p, coll.find? (fun p => p.event == mv) = some p → p.event = mv) ∧
    (∀ p, coll.find? (fun p => p.event == mv) = some p →
      (p.adjustment_balances = none →
        decisionMakingEndBlock s true coll mv mp = some (s, Event.DONE)) ∧
      (∀ ab, p.adjustment_balances = some ab →
        decisionMakingEndBlock s true coll mv mp =
          some (s.set "adjustment_balances" (DBValue.vstr ab), Event.TRANSACT))) := by
  refine ⟨?_, ?_, ?_⟩
  · intro h
    simp [decisionMakingEndBlock, h]
  · intro p hp
    have := List.find?_some hp
    exact eq_of_beq this
  · intro p hp
    constructor
    · intro h
      simp [decisionMakingEndBlock, hp, h]
    · intro ab h
      simp [decisionMakingEndBlock, hp, h]

/-- Witness for C5 at a concrete quorum with a `DONE` payload and no
adjustment map. -/
theorem decision_making_end_block_cases_witness :
    ([⟨"done", none⟩] : List DecisionMakingPayload).find?
        (fun p => p.event == "done") = some ⟨"done", none⟩ ∧
    (⟨"done", none⟩ : DecisionMakingPayload).adjustment_balances = none ∧
    decisionMakingEndBlock SyncDB.empty true [⟨"done", none⟩] "done" true =
      some (SyncDB.empty, Event.DONE) :=
  ⟨rfl, rfl,
    ((decision_making_end_block_cases SyncDB.empty [⟨"done", none⟩] "done" true).2.2
      ⟨"done", none⟩ rfl).1 rfl⟩

/-- C3 counterexample: on balances `{A: 10, B: 0}` and prices `{A: 2, B: 5}`,
`calculate_portfolio_allocation` returns `({A: 20, B: 0}, 20)` — token B has a
zero (not unavailable) balance, so it is *included* with value 0, refuting the
claimed result `({A: 20}, 20)` with B excluded. -/
theorem portfolio_allocation_zero_balance_included :
    calculate_portfolio_allocation (some [("A", some 10), ("B", some 0)]) priceAB =
      some ([("A", 20), ("B", 0)], 20) ∧
    calculate_portfolio_allocation (some [("A", some 10), ("B", some 0)]) priceAB ≠
      some ([("A", 20)], 20) ∧
    lookupOpt [("A", (20 : ℚ)), ("B", 0)] "B" = some 0 := by
  have h1 : calculate_portfolio_allocation (some [("A", some 10), ("B", some 0)])
      priceAB = some ([("A", 20), ("B", 0)], 20) := by with_unfolding_all rfl
  refine ⟨h1, ?_, by with_unfolding_all rfl⟩
  rw [h1]
  intro hc
  simp at hc

/-- C3 (amended): `calculate_portfolio_allocation` computes
`token_value[t] = balance[t] * price[t]` and the total as their sum, skipping
exactly the tokens whose balance or price is *unavailable* (`None`); a token
with a zero balance and an available price is included with value 0. On the
concrete input balances `{A: 10, B: 0}`, prices `{A: 2, B: 5}`, the result is
`({A: 20, B: 0}, 20)` with B included at value 0. -/
theorem portfolio_allocation_rule (balances : List (String × Option ℚ))
    (price : String → Option ℚ) (t : String) (ob : Option ℚ)
    (hnd : (balances.map Prod.fst).Nodup) (hmem : (t, ob) ∈ balances) :
    lookupOpt (balances.foldl (allocStep price) ([], 0)).1 t =
      allocEntry price t ob ∧
    (balances.foldl (allocStep price) ([], 0)).2 =
      (balances.map (fun x => (allocEntry price x.1 x.2).getD 0)).sum ∧
    calculate_portfolio_allocation none price = none ∧
    calculate_portfolio_allocation (some [("A", some 10), ("B", some 0)]) priceAB =
      some ([("A", 20), ("B", 0)], 20) := by
  refine ⟨?_, ?_, rfl, by with_unfolding_all rfl⟩
  · rw [alloc_foldl_lookup_mem price balances ([], 0) t ob hnd hmem]
    exact Option.or_none
  · rw [alloc_foldl_total]
    simp

/-- Witness for the amended C3 theorem at the concrete scenario input. -/
theorem portfolio_allocation_rule_witness :
    ((([("A", some 10), ("B", some 0)] : List (String × Option ℚ)).map
      Prod.fst).Nodup) ∧
    (("B", some (0 : ℚ)) ∈ ([("A", some 10), ("B", some 0)] :
      List (String × Option ℚ))) ∧
    lookupOpt (([("A", some 10), ("B", some 0)] :
        List (String × Option ℚ)).foldl (allocStep priceAB) ([], 0)).1 "B" =
      allocEntry priceAB "B" (some 0) :=
  ⟨by simp, by simp,
    (portfolio_allocation_rule [("A", some 10), ("B", some 0)] priceAB "B"
      (some 0) (by simp) (by simp)).1⟩

/-- C6: for every tracked token with an available price (and a non-zero target
value, where the Python code does not divide by zero), the rebalancing loop
records `target_token_amount = target_value / price` for that token exactly
when `|deviation| > variation_threshold`, with
`target_value = target_pct/100 * total` and
`deviation = (current_value - target_value)/target_value * 100`; on
`token_values = {A: 60, B: 40}`, `total = 100`, targets `[50, 50]` over
`[A, B]`, both tokens are included at threshold 5 and neither at
threshold 25. -/
theorem rebalancing_threshold_rule (token_values : List (String × ℚ))
    (total : ℚ) (pcts : List ℚ) (tokens : List String) (thr : ℚ)
    (price : String → Option ℚ) (t : String) (pct p : ℚ)
    (hnd : tokens.Nodup) (hmem : (t, pct) ∈ tokens.zip pcts)
    (hp : price t = some p) (htot : 0 < total)
    (htv : pct / 100 * total ≠ 0) :
    calculate_rebalancing_actions token_values (some total) pcts tokens thr price =
      some ((tokens.zip pcts).foldl
        (rebalanceStep token_values total thr price) []) ∧
    lookupOpt ((tokens.zip pcts).foldl
        (rebalanceStep token_values total thr price) []) t =
      (if thr < pyAbs ((dictGet token_values t 0 - pct / 100 * total) /
          (pct / 100 * total) * 100)
        then some (pct / 100 * total / p) else none) ∧
    calculate_rebalancing_actions [("A", 60), ("B", 40)] (some 100) [50, 50]
      ["A", "B"] 5 (fun _ => some 1) = some [("A", 50), ("B", 50)] ∧
    calculate_rebalancing_actions [("A", 60), ("B", 40)] (some 100) [50, 50]
      ["A", "B"] 25 (fun _ => some 1) = some [] := by
  refine ⟨?_, ?_, by with_unfolding_all rfl, by with_unfolding_all rfl⟩
  · simp only [calculate_rebalancing_actions]
    rw [if_neg (not_le.mpr htot)]
  · have hzip_nd : ((tokens.zip pcts).map Prod.fst).Nodup :=
      (map_fst_zip_sublist tokens pcts).nodup hnd
    rw [rebalance_foldl_lookup_mem token_values total thr price _ [] t pct
      hzip_nd hmem]
    have hnil : lookupOpt [] t = none := rfl
    rw [hnil, Option.or_none]
    simp only [rebalanceEntry, hp]

/-- Witness for C6 at the concrete scenario input (token A, threshold 5). -/
theorem rebalancing_threshold_rule_witness :
    (["A", "B"] : List String).Nodup ∧
    (("A", (50 : ℚ)) ∈ (["A", "B"].zip [(50 : ℚ), 50])) ∧
    lookupOpt ((["A", "B"].zip [(50 : ℚ), 50]).foldl
        (rebalanceStep [("A", 60), ("B", 40)] 100 5 (fun _ => some 1)) []) "A" =
      (if (5 : ℚ) < pyAbs ((dictGet [("A", 60), ("B", 40)] "A" 0 -
          50 / 100 * 100) / (50 / 100 * 100) * 100)
        then some ((50 : ℚ) / 100 * 100 / 1) else none) :=
  ⟨by simp, by simp,
    (rebalancing_threshold_rule [("A", 60), ("B", 40)] 100 [50, 50] ["A", "B"]
      5 (fun _ => some 1) "A" 50 1 (by simp) (by simp) rfl (by norm_num)
      (by norm_num)).2.1⟩

/-- C2 (code bug): `calculate_rebalancing_actions` can return the *empty*
adjustment map (all deviations within threshold), and `get_next_event` then
returns the `TRANSACT` event value (with a `None` serialization) rather than
`DONE` — the `None`-check misses the empty-dict case, contradicting the spec
and the claim that an empty map never produces `TRANSACT`. -/
theorem empty_adjustment_map_yields_transact :
    calculate_rebalancing_actions [("A", 60), ("B", 40)] (some 100) [50, 50]
      ["A", "B"] 25 (fun _ => some 1) = some [] ∧
    get_next_event (some []) = (Event.TRANSACT.value, none) ∧
    get_next_event (calculate_rebalancing_actions [("A", 60), ("B", 40)]
        (some 100) [50, 50] ["A", "B"] 25 (fun _ => some 1)) =
      (Event.TRANSACT.value, none) ∧
    Event.TRANSACT.value ≠ Event.DONE.value := by
  refine ⟨by with_unfolding_all rfl, rfl, by with_unfolding_all rfl, by decide⟩

/-- C8: `DataPullRound` and `AlternativeDataPullRound` declare identical round
attributes — same done/no-majority events, same collection key, same two
selection keys — hence the (spec-modelled) generic threshold `end_block`
behaves identically for them on every input: `DONE` with the same projections
on quorum, `NO_MAJORITY` once majority is impossible. -/
theorem data_pull_rounds_identical :
    DataPullRoundClass = AlternativeDataPullRoundClass ∧
    (∀ (s : SyncDB) (b : Bool) (coll : List (String × List PlainValue))
      (mv : List PlainValue) (mp : Bool),
      collectSameEndBlock DataPullRoundClass s b coll mv mp =
        collectSameEndBlock AlternativeDataPullRoundClass s b coll mv mp) ∧
    DataPullRoundClass.collection_key = "participant_to_data_round" ∧
    DataPullRoundClass.selection_key = ["token_values", "total_portfolio_value"] ∧
    (∀ (s : SyncDB) (coll : List (String × List PlainValue))
      (mv : List PlainValue) (mp : Bool),
      (collectSameEndBlock DataPullRoundClass s true coll mv mp).map Prod.snd =
        some Event.DONE) ∧
    (∀ (s : SyncDB) (coll : List (String × List PlainValue))
      (mv : List PlainValue),
      collectSameEndBlock DataPullRoundClass s false coll mv false =
        some (s, Event.NO_MAJORITY)) :=
  ⟨rfl, fun _ _ _ _ _ => rfl, rfl, rfl, fun _ _ _ _ => rfl, fun _ _ _ => rfl⟩

/-- C10: the declared database post-conditions guarantee `most_voted_tx_hash`
for `FinishedTxPreparationRound` and nothing for
`FinishedDecisionMakingRound`; `TxPreparationRound` projects `tx_submitter`
and `most_voted_tx_hash` as its selection keys, so its (spec-modelled) quorum
`end_block` sets the `most_voted_tx_hash` key and emits `DONE`, which the
transition table routes to `FinishedTxPreparationRound`. -/
theorem tx_preparation_post_condition (s : SyncDB)
    (coll : List (String × List PlainValue)) (v1 v2 : PlainValue)
    (rest : List PlainValue) (mp : Bool) (s' : SyncDB) (e : Event)
    (h : collectSameEndBlock TxPreparationRoundClass s true coll
      (v1 :: v2 :: rest) mp = some (s', e)) :
    s' "most_voted_tx_hash" = some (DBValue.plain v2) ∧ e = Event.DONE ∧
    db_post_conditions Round.FinishedTxPreparationRound =
      some ["most_voted_tx_hash"] ∧
    db_post_conditions Round.FinishedDecisionMakingRound = some [] ∧
    TxPreparationRoundClass.selection_key = ["tx_submitter", "most_voted_tx_hash"] ∧
    transitionFn Round.TxPreparationRound Event.DONE =
      some Round.FinishedTxPreparationRound := by
  have h' : some (((s.set TxPreparationRoundClass.collection_key
        (DBValue.vcoll coll)).set "tx_submitter" (DBValue.plain v1)).set
        "most_voted_tx_hash" (DBValue.plain v2), Event.DONE) = some (s', e) := h
  obtain ⟨h1, h2⟩ := Prod.mk.injEq .. ▸ Option.some.injEq .. ▸ h'
  refine ⟨?_, h2.symm, rfl, rfl, rfl, rfl⟩
  rw [← h1]
  simp [SyncDB.set]

/-- Witness for C10 at a concrete quorum payload. -/
theorem tx_preparation_post_condition_witness :
    (((SyncDB.empty.set "participant_to_tx_round" (DBValue.vcoll [])).set
        "tx_submitter" (DBValue.plain (PlainValue.pstr "sub"))).set
        "most_voted_tx_hash" (DBValue.plain (PlainValue.pstr "hash")))
      "most_voted_tx_hash" = some (DBValue.plain (PlainValue.pstr "hash")) ∧
    Event.DONE = Event.DONE :=
  ⟨(tx_preparation_post_condition SyncDB.empty [] (PlainValue.pstr "sub")
      (PlainValue.pstr "hash") [] true _ Event.DONE rfl).1,
    rfl⟩

/-- C4: the workflow engine's transition function equals the spec's literal
table at every (round, event) pair. -/
theorem transition_table_matches_spec :
    ∀ (r : Round) (e : Event), transitionFn r e = specTransitionTable r e := by
  intro r e
  cases r <;> cases e <;> rfl

/-- C7: `validate_params` fails (raises) iff at least one configuration
invariant is violated: length mismatch, percentages not summing to 100, or
threshold outside [0, 100]; when all three invariants hold it succeeds (and,
being pure here, changes nothing). -/
theorem validate_params_ok_iff (p : RebalanceParams) :
    (validate_params p = .ok () ↔
      (p.tokens_to_rebalance.length = p.target_percentages.length ∧
        p.target_percentages.sum = 100 ∧
        0 ≤ p.variation_threshold ∧ p.variation_threshold ≤ 100)) ∧
    ((∃ msg, validate_params p = .error msg) ↔
      (p.tokens_to_rebalance.length ≠ p.target_percentages.length ∨
        p.target_percentages.sum ≠ 100 ∨
        ¬(0 ≤ p.variation_threshold ∧ p.variation_threshold ≤ 100))) := by
  unfold validate_params
  constructor
  · constructor
    · intro h
      by_cases h1 : p.tokens_to_rebalance.length = p.target_percentages.length
      · by_cases h2 : p.target_percentages.sum = 100
        · by_cases h3 : 0 ≤ p.variation_threshold ∧ p.variation_threshold ≤ 100
          · exact ⟨h1, h2, h3⟩
          · simp [h1, h2, h3] at h
        · simp [h1, h2] at h
      · simp [h1] at h
    · rintro ⟨h1, h2, h3⟩
      simp [h1, h2, h3]
  · constructor
    · rintro ⟨msg, h⟩
      by_contra hcon
      push_neg at hcon
      obtain ⟨h1, h2, h3⟩ := hcon
      simp [h1, h2, h3] at h
    · intro h
      by_cases h1 : p.tokens_to_rebalance.length = p.target_percentages.length
      · by_cases h2 : p.target_percentages.sum = 100
        · have h3 : ¬(0 ≤ p.variation_threshold ∧ p.variation_threshold ≤ 100) := by
            rcases h with h | h | h
            · exact absurd h1 h
            · exact absurd h2 h
            · exact h
          exact ⟨"Variation threshold must be between 0 and 100.",
            by simp [h1, h2, h3]⟩
        · exact ⟨"Target percentages must sum to 100.", by simp [h1, h2]⟩
      · exact ⟨"The number of tokens must match the number of target percentages.",
          by simp [h1]⟩

end LearningAbci
